import Mathlib

/-!
Shallow embedding of `streamlit_app.py` (cric_app): a linear scraping
pipeline — profile resolver, identifier extractor, query builder, table
scraper, match-detail fetcher — plus the Streamlit `main` driver.

HTML documents returned by `requests.get` + `BeautifulSoup` are modelled as a
list of elements in document order; the network and the pandas table reader
are modelled as an explicit environment (`Fetcher`) whose operations return
`Except String _` (an `Except.error` is a raised Python exception).
-/

namespace CricApp

/-- An HTML element as seen through BeautifulSoup: tag name, the element's
CSS class signature (the full `class` attribute string), its `href`
attribute when present, and its text content (`get_text` / `str(elem)`). -/
structure Element where
  tag : String
  cls : String
  href : Option String
  text : String
deriving DecidableEq

/-- A parsed HTML document: its elements in document order. -/
structure Soup where
  elements : List Element
deriving DecidableEq

/-- The tabular result of `pd.read_html`: rows of cells. -/
def Table : Type := List (List String)

instance : DecidableEq Table := inferInstanceAs (DecidableEq (List (List String)))

/-- The effectful environment: `fetchParse url` models
`BeautifulSoup(requests.get(url).text, 'html.parser')` (an `Except.error` is
an exception raised while fetching or parsing), and `readHtml` models
`pd.read_html(str(table))[0]` on the serialized table element. -/
structure Fetcher where
  fetchParse : String → Except String Soup
  readHtml : String → Except String Table

/-- `soup.find(tag, class_=cls)`: the first element in document order with
the given tag and class signature. -/
def findFirst (soup : Soup) (tag cls : String) : Option Element :=
  soup.elements.find? (fun e => e.tag == tag && e.cls == cls)

/-- A FilterSet: a Python dict of filter keys to string values, modelled as
an association list in the dict's insertion/iteration order. -/
abbrev FilterSet := List (String × String)

/-- Python's `sep.join(parts)`. -/
def str_join (sep : String) : List String → String
  | [] => ""
  | [s] => s
  | s :: rest => s ++ sep ++ str_join sep rest

/-- Step 3 of the source: `generate_filtered_url(player_id, filters,
stats_type, tournament)`. Builds the base profile path, seeds the parameter
list with `stats_type` and `tournament`, appends `key=val` for every filter
entry whose value is truthy (a non-empty string), and joins with `&` after
a `?`. -/
def generate_filtered_url (player_id : String) (filters : FilterSet)
    (stats_type tournament : String) : String :=
  let base := "https://www.cricbuzz.com/profiles/" ++ player_id ++ "/career-stats"
  let params := ["stats_type=" ++ stats_type, "tournament=" ++ tournament]
  let params := filters.foldl
    (fun ps kv => if kv.2 ≠ "" then ps ++ [kv.1 ++ "=" ++ kv.2] else ps) params
  base ++ "?" ++ str_join "&" params

/-- The literal `/player/` of the regex `r'/player/(.+?)/'`, as characters. -/
def playerPat : List Char := "/player/".data

/-- The scanning loop of the non-greedy group `(.+?)` followed by `/`: having
already consumed `acc` (at least one character), stop with `acc` at the first
`/`, fail at a newline (`.` does not match `\n`), otherwise keep consuming. -/
def grabGo (acc : List Char) : List Char → Option (List Char)
  | [] => none
  | c :: rest =>
    if c = '/' then some acc
    else if c = '\n' then none
    else grabGo (acc ++ [c]) rest

/-- Matching `(.+?)/` at a fixed position: the group takes at least one
character (never a newline), then `grabGo` extends it minimally up to a `/`. -/
def grabId : List Char → Option (List Char)
  | [] => none
  | c :: rest => if c = '\n' then none else grabGo [c] rest

/-- `re.search(r'/player/(.+?)/', s)`: try every start position from the
left; where the literal `/player/` matches, try to match the group and the
closing slash; on failure resume the scan one character further. -/
def searchFrom : List Char → Option (List Char)
  | [] => none
  | c :: rest =>
    if (c :: rest).take 8 = playerPat then
      match grabId ((c :: rest).drop 8) with
      | some g => some g
      | none => searchFrom rest
    else searchFrom rest

/-- Step 2 of the source: `get_player_id(profile_url)` returns
`match.group(1)` of `re.search(r'/player/(.+?)/', profile_url)` or `None`. -/
def get_player_id (profile_url : String) : Option String :=
  (searchFrom profile_url.data).map (fun g => String.mk g)

/-- The search URL of step 1: `'https://www.cricbuzz.com/search?q=' +
player_name.replace(' ', '+')`. -/
def search_url (player_name : String) : String :=
  "https://www.cricbuzz.com/search?q="
    ++ String.mk (player_name.data.map (fun c => if c = ' ' then '+' else c))

/-- Python's substring test `p in l`, on character lists: `p` occurs
contiguously in `l`. -/
def containsSub (p : List Char) : List Char → Bool
  | [] => p.isEmpty
  | c :: rest => (p == (c :: rest).take p.length) || containsSub p rest

/-- The body of the resolver's `for link in links` loop at one link: if the
href contains `/player/`, the absolute URL to return, else nothing. -/
def link_pick (e : Element) : Option String :=
  match e.href with
  | some h =>
      if containsSub playerPat h.data then some ("https://www.cricbuzz.com" ++ h)
      else none
  | none => none

/-- Step 1 of the source: `get_player_profile_url(player_name)`. Fetches the
search page (an exception here propagates: the function has no handler),
collects `soup.find_all('a', href=True)`, and returns the absolute URL of the
first link whose href contains `/player/`, else `None`. -/
def get_player_profile_url (env : Fetcher) (player_name : String) :
    Except String (Option String) := do
  let soup ← env.fetchParse (search_url player_name)
  let links := soup.elements.filter (fun e => e.tag == "a" && e.href.isSome)
  pure (links.findSome? link_pick)

/-- The CSS class signature used both for the stats table and (twice) for the
match-detail divs. -/
def statsCls : String := "cb-col cb-col-100 cb-ltst-wgt-hdr"

/-- The `try` block of step 4: fetch and parse the page, look for the stats
table, and convert it with `pd.read_html` when present. -/
def scrape_body (env : Fetcher) (url : String) : Except String (Option Table) := do
  let soup ← env.fetchParse url
  match findFirst soup "table" statsCls with
  | some tbl => do
      let df ← env.readHtml tbl.text
      pure (some df)
  | none => pure none

/-- Step 4 of the source: `scrape_stats_table(url)`. Any exception of the
body is caught and turned into `None` plus the printed diagnostic message
(second component: the lines printed to the console). -/
def scrape_stats_table (env : Fetcher) (url : String) :
    Option Table × List String :=
  match scrape_body env url with
  | .ok r => (r, [])
  | .error e => (none, ["Error scraping stats: " ++ e])

/-- Step 5 of the source: `get_match_details(match_url)`. No handler: a fetch
exception propagates. Venue and pitch report are both looked up with
`soup.find('div', class_=statsCls)` — the same selector — each falling back
to its own placeholder text. -/
def get_match_details (env : Fetcher) (match_url : String) :
    Except String (String × String) := do
  let soup ← env.fetchParse match_url
  let venue := findFirst soup "div" statsCls
  let venue_name := match venue with
    | some v => v.text
    | none => "Not available"
  let pitch_report := findFirst soup "div" statsCls
  let pitch_info := match pitch_report with
    | some p => p.text
    | none => "Pitch report not available"
  pure (venue_name, pitch_info)

/-- A user-visible Streamlit event emitted by `main`, in emission order. -/
inductive UIEvent where
  | title (s : String)
  | errorMsg (s : String)
  | successMsg (s : String)
  | subheader (s : String)
  | writeTable (t : Table)
  | writeText (s : String)
  | warnMsg (s : String)
  | downloadButton (label fileName : String)
deriving DecidableEq

/-- The result-code mapping of `main`:
`"1" if res == "Won" else "2" if res == "Lost" else "3" if res == "Draw" else ""`. -/
def result_code (res : String) : String :=
  if res = "Won" then "1" else if res = "Lost" then "2"
  else if res = "Draw" then "3" else ""

/-- The `filters` dict built by `main`, in its literal insertion order. The
span bounds are the strings `strftime('%Y-%m-%d')` of today minus 365 days
and of today, passed in explicitly (the ambient clock). -/
def main_filters (bp opp res inn spanmin spanmax : String) : FilterSet :=
  [("batting_position", bp),
   ("opposition", opp),
   ("result", result_code res),
   ("innings_number", if inn ≠ "All" then inn else ""),
   ("spanmin", spanmin),
   ("spanmax", spanmax)]

/-- The download file name `f"{player_name}_ipl_batting_stats.csv"`. -/
def batting_file_name (player_name : String) : String :=
  player_name ++ "_ipl_batting_stats.csv"

/-- The download file name `f"{player_name}_ipl_bowling_stats.csv"`. -/
def bowling_file_name (player_name : String) : String :=
  player_name ++ "_ipl_bowling_stats.csv"

/-- The `main` driver for one interaction, given the form inputs and the
clock-derived span strings. Returns the emitted `UIEvent`s together with the
list of URLs passed to `scrape_stats_table` (the scrape attempts); an
`Except.error` is an exception escaping `main` (the resolver and the
match-detail fetcher have no handler). -/
def main_model (env : Fetcher)
    (player_name bp opp res inn spanmin spanmax : String) :
    Except String (List UIEvent × List String) := do
  let ev0 := [UIEvent.title "IPL Player Performance Analyzer"]
  if player_name = "" then
    pure (ev0, [])
  else do
    let profile_url ← get_player_profile_url env player_name
    match profile_url with
    | none =>
        pure (ev0 ++ [UIEvent.errorMsg "Player not found. Please try with another name."], [])
    | some purl =>
      match get_player_id purl with
      | none => pure (ev0 ++ [UIEvent.errorMsg "Unable to extract player ID."], [])
      | some pid => do
        let ev1 := ev0 ++ [UIEvent.successMsg ("Found Player ID: " ++ pid),
                           UIEvent.subheader "Apply Filters for IPL Matches"]
        let filters := main_filters bp opp res inn spanmin spanmax
        let batting_url := generate_filtered_url pid filters "batting" "ipl"
        let battingRes := scrape_stats_table env batting_url
        let ev2 := ev1 ++ [UIEvent.subheader "Batting Stats"] ++
          (match battingRes.1 with
           | some df =>
               [UIEvent.writeTable df,
                UIEvent.downloadButton "Download Batting Stats as CSV"
                  (batting_file_name player_name)]
           | none => [UIEvent.warnMsg "No Batting stats found for the applied filters."])
        let bowling_url := generate_filtered_url pid filters "bowling" "ipl"
        let bowlingRes := scrape_stats_table env bowling_url
        let ev3 := ev2 ++ [UIEvent.subheader "Bowling Stats"] ++
          (match bowlingRes.1 with
           | some df =>
               [UIEvent.writeTable df,
                UIEvent.downloadButton "Download Bowling Stats as CSV"
                  (bowling_file_name player_name)]
           | none => [UIEvent.warnMsg "No Bowling stats found for the applied filters."])
        let match_url := "https://www.cricbuzz.com/live-cricket-scorecard/" ++ pid
        let vp ← get_match_details env match_url
        let ev4 := ev3 ++ [UIEvent.subheader "Ground Venue and Pitch Report",
                           UIEvent.writeText ("**Ground Venue**: " ++ vp.1),
                           UIEvent.writeText ("**Pitch Report**: " ++ vp.2)]
        pure (ev4, [batting_url, bowling_url])

/-! Helper lemmas about the query builder. -/

theorem foldl_filter_params (f : String × String → String) :
    ∀ (l : FilterSet) (init : List String),
      List.foldl (fun ps kv => if kv.2 ≠ "" then ps ++ [f kv] else ps) init l
        = init ++ (l.filter (fun kv => kv.2 ≠ "")).map f := by
  intro l
  induction l with
  | nil => intro init; simp
  | cons kv rest ih =>
      intro init
      rw [List.foldl_cons, List.filter_cons]
      by_cases h : kv.2 = ""
      · rw [if_neg (not_not_intro h), if_neg (by simp [h]), ih]
      · rw [if_pos h, if_pos (by simp [h]), ih, List.map_cons]
        simp

theorem generate_filtered_url_eq (pid : String) (filters : FilterSet)
    (st tn : String) :
    generate_filtered_url pid filters st tn
      = "https://www.cricbuzz.com/profiles/" ++ pid ++ "/career-stats" ++ "?"
        ++ str_join "&" (("stats_type=" ++ st) :: ("tournament=" ++ tn)
            :: (filters.filter (fun kv => kv.2 ≠ "")).map
                 (fun kv => kv.1 ++ "=" ++ kv.2)) := by
  simp only [generate_filtered_url]
  rw [foldl_filter_params]
  rfl

theorem span_url_concat (x y : String) :
    ("https://www.cricbuzz.com/profiles/" ++ "kohli" ++ "/career-stats" ++ "?" : String)
        ++ (("stats_type=" ++ "batting") ++ "&"
            ++ (("tournament=" ++ "ipl") ++ "&"
                ++ (("spanmin" ++ "=" ++ x) ++ "&" ++ ("spanmax" ++ "=" ++ y))))
      = "https://www.cricbuzz.com/profiles/kohli/career-stats?stats_type=batting&tournament=ipl&spanmin="
          ++ x ++ "&spanmax=" ++ y := by
  apply String.ext
  simp only [String.data_append, List.append_assoc, List.cons_append, List.nil_append]

/-- C1: for every identifier, FilterSet, stats-type and tournament selector,
`generate_filtered_url` returns the base path
`https://www.cricbuzz.com/profiles/{id}/career-stats` followed by `?` and the
`&`-join of a parameter list that begins with `stats_type=..` then
`tournament=..`, followed by one verbatim `key=value` entry for each filter
entry with a non-blank value, in the FilterSet's own iteration order;
blank-valued entries are omitted entirely (no empty `key=` is ever emitted). -/
theorem generate_filtered_url_query_shape (pid : String) (filters : FilterSet)
    (st tn : String) :
    generate_filtered_url pid filters st tn
      = "https://www.cricbuzz.com/profiles/" ++ pid ++ "/career-stats" ++ "?"
        ++ str_join "&" (("stats_type=" ++ st) :: ("tournament=" ++ tn)
            :: (filters.filter (fun kv => kv.2 ≠ "")).map
                 (fun kv => kv.1 ++ "=" ++ kv.2)) :=
  generate_filtered_url_eq pid filters st tn

/-- C8: the query builder is pure, deterministic and total — invoking it
twice on the same inputs yields identical URL strings, and it always
produces a URL extending the base profile path (never an absent result,
never a raised exception). -/
theorem generate_filtered_url_pure (pid : String) (filters : FilterSet)
    (st tn : String) :
    generate_filtered_url pid filters st tn
        = generate_filtered_url pid filters st tn
    ∧ ∃ q : String,
        generate_filtered_url pid filters st tn
          = "https://www.cricbuzz.com/profiles/" ++ pid ++ "/career-stats"
            ++ "?" ++ q := by
  constructor
  · rfl
  · exact ⟨_, generate_filtered_url_eq pid filters st tn⟩

/-- C7 is false on the code: in the end-to-end scenario (identifier `kohli`,
all user filters blank, result `All`), the batting URL built by `main` also
carries the always-non-blank `spanmin`/`spanmax` date filters, so it is not
the claimed `profiles/kohli/career-stats?stats_type=batting&tournament=ipl`.
Shown with the clock at 2026-10-12. -/
theorem main_batting_url_spans_counterexample :
    generate_filtered_url "kohli"
        (main_filters "" "" "All" "All" "2025-10-12" "2026-10-12")
        "batting" "ipl"
      = "https://www.cricbuzz.com/profiles/kohli/career-stats?stats_type=batting&tournament=ipl&spanmin=2025-10-12&spanmax=2026-10-12"
    ∧ generate_filtered_url "kohli"
        (main_filters "" "" "All" "All" "2025-10-12" "2026-10-12")
        "batting" "ipl"
      ≠ "https://www.cricbuzz.com/profiles/kohli/career-stats?stats_type=batting&tournament=ipl" := by
  constructor
  · decide
  · decide

/-- C7 (amended): in the end-to-end scenario — identifier `kohli`, all user
filters blank, result `All` — the batting query URL is the claimed path and
query followed by the two always-present span parameters holding the
(never-blank) rolling-year date bounds, and the batting table is
downloadable under the file name `Virat Kohli_ipl_batting_stats.csv`. -/
theorem main_batting_url_scenario (spanmin spanmax : String)
    (hmin : spanmin ≠ "") (hmax : spanmax ≠ "") :
    generate_filtered_url "kohli"
        (main_filters "" "" "All" "All" spanmin spanmax) "batting" "ipl"
      = "https://www.cricbuzz.com/profiles/kohli/career-stats?stats_type=batting&tournament=ipl&spanmin="
          ++ spanmin ++ "&spanmax=" ++ spanmax
    ∧ batting_file_name "Virat Kohli" = "Virat Kohli_ipl_batting_stats.csv" := by
  constructor
  · rw [generate_filtered_url_eq]
    have hfil : (main_filters "" "" "All" "All" spanmin spanmax).filter
          (fun kv => kv.2 ≠ "") = [("spanmin", spanmin), ("spanmax", spanmax)] := by
      simp [main_filters, result_code, hmin, hmax]
    rw [hfil]
    simp only [List.map_cons, List.map_nil, str_join]
    exact span_url_concat spanmin spanmax
  · rfl

/-- Witness for the amended C7 theorem at the concrete clock 2026-10-12. -/
theorem main_batting_url_scenario_witness :
    generate_filtered_url "kohli"
        (main_filters "" "" "All" "All" "2025-10-12" "2026-10-12") "batting" "ipl"
      = "https://www.cricbuzz.com/profiles/kohli/career-stats?stats_type=batting&tournament=ipl&spanmin="
          ++ "2025-10-12" ++ "&spanmax=" ++ "2026-10-12"
    ∧ batting_file_name "Virat Kohli" = "Virat Kohli_ipl_batting_stats.csv" :=
  main_batting_url_scenario "2025-10-12" "2026-10-12" (by decide) (by decide)

/-! The table scraper, the profile resolver, the match-detail fetcher and the
`main` driver, under explicit environments. -/

/-- C2: `scrape_stats_table` never propagates an exception — a fetch/parse
exception or a table-conversion exception is caught and becomes `none` plus
the printed `Error scraping stats: ..` diagnostic, and a fetched page with no
table of the expected class signature yields `none` without raising. (By
construction the function returns a plain value, never an `Except.error`.) -/
theorem scrape_stats_table_catches_failures (env : Fetcher) (url : String) :
    (∀ e, env.fetchParse url = .error e →
       scrape_stats_table env url = (none, ["Error scraping stats: " ++ e]))
    ∧ (∀ soup, env.fetchParse url = .ok soup →
         (findFirst soup "table" statsCls = none →
            scrape_stats_table env url = (none, []))
         ∧ (∀ tbl e, findFirst soup "table" statsCls = some tbl →
              env.readHtml tbl.text = .error e →
              scrape_stats_table env url = (none, ["Error scraping stats: " ++ e]))) := by
  refine ⟨?_, ?_⟩
  · intro e he
    simp [scrape_stats_table, scrape_body, he, Bind.bind, Except.bind]
  · intro soup hs
    refine ⟨?_, ?_⟩
    · intro hn
      simp [scrape_stats_table, scrape_body, hs, hn, Bind.bind, Except.bind,
            Pure.pure, Except.pure]
    · intro tbl e ht hr
      simp [scrape_stats_table, scrape_body, hs, ht, hr, Bind.bind, Except.bind,
            Pure.pure, Except.pure]

/-- C6: venue and pitch report are selected with the same CSS class selector,
so on every fetched page the two outputs degenerate: if a matching div
exists, both equal the text of the first matching div (hence each other);
if none exists, each is its own fixed placeholder string. -/
theorem get_match_details_same_selector (env : Fetcher) (url : String)
    (soup : Soup) (h : env.fetchParse url = .ok soup) :
    (∀ d, findFirst soup "div" statsCls = some d →
       get_match_details env url = .ok (d.text, d.text))
    ∧ (findFirst soup "div" statsCls = none →
       get_match_details env url = .ok ("Not available", "Pitch report not available")) := by
  constructor
  · intro d hd
    simp [get_match_details, h, hd, Bind.bind, Except.bind, Pure.pure, Except.pure]
  · intro hn
    simp [get_match_details, h, hn, Bind.bind, Except.bind, Pure.pure, Except.pure]

/-- The resolver's selection rule as the spec words it: among the hyperlink
elements (tag `a` with an href), the first one in document order whose href
contains `/player/`, rewritten as an absolute URL. -/
def link_matches (e : Element) : Bool :=
  match e.href with
  | some h => containsSub playerPat h.data
  | none => false

/-- Spec-side description of the resolver's result on a parsed document (for
comparison with the code's loop). -/
def spec_first_player_link (soup : Soup) : Option String :=
  ((soup.elements.filter (fun e => e.tag == "a" && e.href.isSome)).find? link_matches).map
    (fun e => "https://www.cricbuzz.com" ++ e.href.getD "")

theorem findSome?_link_pick (l : List Element) :
    l.findSome? link_pick
      = (l.find? link_matches).map (fun e => "https://www.cricbuzz.com" ++ e.href.getD "") := by
  induction l with
  | nil => rfl
  | cons e rest ih =>
      cases hh : e.href with
      | none => simp [List.findSome?_cons, List.find?_cons, link_pick, link_matches, hh, ih]
      | some s =>
          by_cases hc : containsSub playerPat s.data
          · simp [List.findSome?_cons, List.find?_cons, link_pick, link_matches, hh, hc]
          · simp [List.findSome?_cons, List.find?_cons, link_pick, link_matches, hh, hc, ih]

/-- C4: on any fetched search document, the resolver returns
`https://www.cricbuzz.com` prepended to the href of the first hyperlink (in
document order) whose href contains `/player/`, with no further ranking; and
if no hyperlink's href contains `/player/` it returns `none`. -/
theorem get_player_profile_url_first_match (env : Fetcher) (player_name : String)
    (soup : Soup) (h : env.fetchParse (search_url player_name) = .ok soup) :
    get_player_profile_url env player_name = .ok (spec_first_player_link soup)
    ∧ ((∀ e ∈ soup.elements, ∀ s, e.href = some s →
          containsSub playerPat s.data = false) →
        get_player_profile_url env player_name = .ok none) := by
  have h1 : get_player_profile_url env player_name = .ok (spec_first_player_link soup) := by
    simp [get_player_profile_url, h, Bind.bind, Except.bind, Pure.pure, Except.pure,
          spec_first_player_link, findSome?_link_pick]
  refine ⟨h1, fun hall => ?_⟩
  rw [h1]
  suffices hs : spec_first_player_link soup = none by rw [hs]
  unfold spec_first_player_link
  rw [List.find?_eq_none.mpr ?_]
  · rfl
  · intro e he
    have hmem : e ∈ soup.elements := List.mem_of_mem_filter he
    cases hh : e.href with
    | none => simp [link_matches, hh]
    | some s => simp [link_matches, hh, hall e hmem s hh]

/-- C5 (amended): when the HTTP fetch of the search page succeeds, the
resolver never raises — parse-level failure to find a matching link is
surfaced as `none`; but a fetch exception is not caught and propagates to
the caller unchanged. -/
theorem get_player_profile_url_error_behavior (env : Fetcher) (player_name : String) :
    (∀ soup, env.fetchParse (search_url player_name) = .ok soup →
       ∃ r : Option String, get_player_profile_url env player_name = .ok r)
    ∧ (∀ e, env.fetchParse (search_url player_name) = .error e →
       get_player_profile_url env player_name = .error e) := by
  constructor
  · intro soup hs
    refine ⟨(soup.elements.filter (fun e => e.tag == "a" && e.href.isSome)).findSome? link_pick, ?_⟩
    simp [get_player_profile_url, hs, Bind.bind, Except.bind, Pure.pure, Except.pure]
  · intro e he
    simp [get_player_profile_url, he, Bind.bind, Except.bind]

/-- C9: after an upstream absence no downstream step runs — if the resolver
returns `none`, or the identifier extractor returns `none` on the resolved
URL, `main` emits the page title plus a single error message and nothing
else, and the list of scrape attempts (stats URLs passed to the scraper) is
empty. -/
theorem main_no_downstream_after_absence (env : Fetcher)
    (pn bp opp res inn smin smax : String) (hpn : pn ≠ "") :
    (get_player_profile_url env pn = .ok none →
       main_model env pn bp opp res inn smin smax
         = .ok ([UIEvent.title "IPL Player Performance Analyzer",
                 UIEvent.errorMsg "Player not found. Please try with another name."], []))
    ∧ (∀ purl, get_player_profile_url env pn = .ok (some purl) →
         get_player_id purl = none →
         main_model env pn bp opp res inn smin smax
           = .ok ([UIEvent.title "IPL Player Performance Analyzer",
                   UIEvent.errorMsg "Unable to extract player ID."], [])) := by
  constructor
  · intro h
    simp [main_model, hpn, h, Bind.bind, Except.bind, Pure.pure, Except.pure]
  · intro purl h hid
    simp [main_model, hpn, h, hid, Bind.bind, Except.bind, Pure.pure, Except.pure]

/-! Concrete environments for witnesses and counterexamples. -/

/-- A network that always raises `ConnectionError`. -/
def envConnFail : Fetcher :=
  ⟨fun _ => .error "ConnectionError", fun _ => .error "ConnectionError"⟩

/-- A network that always raises `boom`. -/
def envBoom : Fetcher := ⟨fun _ => .error "boom", fun _ => .error "boom"⟩

/-- A network returning an empty document for every URL. -/
def envNoLinks : Fetcher := ⟨fun _ => .ok ⟨[]⟩, fun _ => .error "no table"⟩

/-- A search-results document with one player link. -/
def soupSearch : Soup :=
  ⟨[⟨"a", "", some "/player/kohli/virat-kohli", "Virat Kohli"⟩]⟩

/-- A network returning the one-link search document for every URL. -/
def envSearch : Fetcher := ⟨fun _ => .ok soupSearch, fun _ => .error "no table"⟩

/-- A div carrying the stats class signature. -/
def divElem : Element := ⟨"div", statsCls, none, "M. Chinnaswamy Stadium, Bengaluru"⟩

/-- A document holding just that div. -/
def soupDiv : Soup := ⟨[divElem]⟩

/-- A network returning the one-div document for every URL. -/
def envDiv : Fetcher := ⟨fun _ => .ok soupDiv, fun _ => .error "no table"⟩

/-- C5 is false on the code: `get_player_profile_url` has no exception
handler, so a fetch exception propagates to its caller instead of becoming
an absent result. -/
theorem get_player_profile_url_propagates_exception :
    get_player_profile_url envConnFail "Virat Kohli" = .error "ConnectionError" := rfl

/-- Witness for the C2 theorem: a raising network at a concrete URL. -/
theorem scrape_stats_table_catches_failures_witness :
    scrape_stats_table envBoom "https://example.com"
      = (none, ["Error scraping stats: " ++ "boom"]) :=
  (scrape_stats_table_catches_failures envBoom "https://example.com").1 "boom" rfl

/-- Witness for the C4 theorem: the one-link document resolves to that link. -/
theorem get_player_profile_url_first_match_witness :
    get_player_profile_url envSearch "Virat Kohli"
      = .ok (some "https://www.cricbuzz.com/player/kohli/virat-kohli") :=
  Eq.trans (get_player_profile_url_first_match envSearch "Virat Kohli" soupSearch rfl).1 rfl

/-- Witness for the amended C5 theorem: a successful fetch yields a plain
optional result. -/
theorem get_player_profile_url_error_behavior_witness :
    ∃ r : Option String, get_player_profile_url envNoLinks "Virat Kohli" = .ok r :=
  (get_player_profile_url_error_behavior envNoLinks "Virat Kohli").1 ⟨[]⟩ rfl

/-- Witness for the C6 theorem: a page with one matching div gives its text
as both venue and pitch report. -/
theorem get_match_details_same_selector_witness :
    get_match_details envDiv "https://example.com" = .ok (divElem.text, divElem.text) :=
  (get_match_details_same_selector envDiv "https://example.com" soupDiv rfl).1 divElem rfl

/-- Witness for the C9 theorem: a search page with no links stops the
pipeline at a single error message with no scrape attempts. -/
theorem main_no_downstream_after_absence_witness :
    main_model envNoLinks "Virat Kohli" "" "" "All" "All" "2025-10-12" "2026-10-12"
      = .ok ([UIEvent.title "IPL Player Performance Analyzer",
              UIEvent.errorMsg "Player not found. Please try with another name."], []) :=
  (main_no_downstream_after_absence envNoLinks "Virat Kohli" "" "" "All" "All"
    "2025-10-12" "2026-10-12" (by decide)).1 rfl

/-! The identifier extractor: soundness and completeness of the embedded
`re.search(r'/player/(.+?)/', url)`. -/

/-- One unfolding step of the scan. -/
theorem searchFrom_cons (c : Char) (rest : List Char) :
    searchFrom (c :: rest)
      = if (c :: rest).take 8 = playerPat then
          match grabId ((c :: rest).drop 8) with
          | some g => some g
          | none => searchFrom rest
        else searchFrom rest := rfl

theorem grabGo_sound : ∀ (cs acc g : List Char), grabGo acc cs = some g →
    ∃ pre c, g = acc ++ pre ∧ cs = pre ++ '/' :: c ∧ '\n' ∉ pre ∧ '/' ∉ pre := by
  intro cs
  induction cs with
  | nil => intro acc g h; simp [grabGo] at h
  | cons ch rest ih =>
      intro acc g h
      by_cases h1 : ch = '/'
      · simp [grabGo, h1] at h
        exact ⟨[], rest, by simp [h], by simp [h1], by simp, by simp⟩
      · by_cases h2 : ch = '\n'
        · simp [grabGo, h1, h2] at h
        · simp only [grabGo, if_neg h1, if_neg h2] at h
          obtain ⟨pre, c, hg, hrest, hnl, hns⟩ := ih (acc ++ [ch]) g h
          refine ⟨ch :: pre, c, by simp [hg], by simp [hrest], ?_, ?_⟩
          · intro hm
            rcases List.mem_cons.mp hm with he | hm2
            · exact h2 he.symm
            · exact hnl hm2
          · intro hm
            rcases List.mem_cons.mp hm with he | hm2
            · exact h1 he.symm
            · exact hns hm2

theorem grabId_sound (cs g : List Char) (h : grabId cs = some g) :
    ∃ c, cs = g ++ '/' :: c ∧ g ≠ [] ∧ '\n' ∉ g ∧ '/' ∉ g.tail := by
  cases cs with
  | nil => simp [grabId] at h
  | cons ch rest =>
      by_cases h2 : ch = '\n'
      · simp [grabId, h2] at h
      · simp only [grabId, if_neg h2] at h
        obtain ⟨pre, c, hg, hrest, hnl, hns⟩ := grabGo_sound rest [ch] g h
        refine ⟨c, by simp [hrest, hg], by simp [hg], ?_, ?_⟩
        · intro hm
          rw [hg] at hm
          rcases List.mem_cons.mp (by simpa using hm) with he | hm2
          · exact h2 he.symm
          · exact hnl hm2
        · intro hm
          rw [hg] at hm
          exact hns (by simpa using hm)

theorem grabGo_complete : ∀ (b acc c : List Char), '\n' ∉ b →
    (grabGo acc (b ++ '/' :: c)).isSome := by
  intro b
  induction b with
  | nil => intro acc c _; simp [grabGo]
  | cons ch rest ih =>
      intro acc c hnl
      have hch : ¬ ch = '\n' := fun hh => hnl (by simp [hh])
      by_cases h1 : ch = '/'
      · simp [grabGo, h1]
      · rw [List.cons_append]
        simp only [grabGo, if_neg h1, if_neg hch]
        exact ih (acc ++ [ch]) c (fun hm => hnl (List.mem_cons_of_mem _ hm))

theorem grabId_complete (b c : List Char) (hb : b ≠ []) (hnl : '\n' ∉ b) :
    (grabId (b ++ '/' :: c)).isSome := by
  cases b with
  | nil => exact absurd rfl hb
  | cons ch rest =>
      have hch : ¬ ch = '\n' := fun hh => hnl (by simp [hh])
      rw [List.cons_append]
      simp only [grabId, if_neg hch]
      exact grabGo_complete rest [ch] c (fun hm => hnl (List.mem_cons_of_mem _ hm))

theorem searchFrom_sound : ∀ (cs g : List Char), searchFrom cs = some g →
    ∃ x c, cs = x ++ playerPat ++ g ++ '/' :: c ∧ g ≠ [] ∧ '\n' ∉ g
      ∧ '/' ∉ g.tail
      ∧ ∀ (x2 b2 c2 : List Char),
          cs = x2 ++ playerPat ++ b2 ++ '/' :: c2 → b2 ≠ [] → '\n' ∉ b2 →
          x.length ≤ x2.length := by
  intro cs
  induction cs with
  | nil => intro g h; simp [searchFrom] at h
  | cons ch rest ih =>
      intro g h
      by_cases hp : (ch :: rest).take 8 = playerPat
      · rw [searchFrom_cons, if_pos hp] at h
        cases hg : grabId ((ch :: rest).drop 8) with
        | some gg =>
            rw [hg] at h
            have hgg : gg = g := by simpa using h
            subst hgg
            have hdecomp : (ch :: rest) = playerPat ++ (ch :: rest).drop 8 := by
              conv_lhs => rw [← List.take_append_drop 8 (ch :: rest)]
              rw [hp]
            obtain ⟨c, hc, hne, hnl, hns⟩ := grabId_sound _ _ hg
            refine ⟨[], c, ?_, hne, hnl, hns, ?_⟩
            · rw [List.nil_append, hdecomp, hc]
              simp [List.append_assoc]
            · intro x2 b2 c2 _ _ _
              exact Nat.zero_le _
        | none =>
            rw [hg] at h
            obtain ⟨x, c, hc, hne, hnl, hns, hmin⟩ := ih g h
            refine ⟨ch :: x, c, by simp [hc], hne, hnl, hns, ?_⟩
            intro x2 b2 c2 hd hb2 hnl2
            cases x2 with
            | nil =>
                exfalso
                have hdrop : (ch :: rest).drop 8 = b2 ++ '/' :: c2 := by
                  rw [hd]
                  simp only [List.nil_append, List.append_assoc]
                  exact List.drop_left' (by decide)
                have hsome := grabId_complete b2 c2 hb2 hnl2
                rw [← hdrop, hg] at hsome
                simp at hsome
            | cons ch2 x3 =>
                simp only [List.cons_append, List.append_assoc] at hd
                injection hd with hch hrest
                have := hmin x3 b2 c2 (by simp [hrest, List.append_assoc]) hb2 hnl2
                simpa [List.length_cons] using Nat.succ_le_succ this
      · rw [searchFrom_cons, if_neg hp] at h
        obtain ⟨x, c, hc, hne, hnl, hns, hmin⟩ := ih g h
        refine ⟨ch :: x, c, by simp [hc], hne, hnl, hns, ?_⟩
        intro x2 b2 c2 hd hb2 hnl2
        cases x2 with
        | nil =>
            exfalso
            apply hp
            rw [hd]
            simp only [List.nil_append, List.append_assoc]
            exact List.take_left' (by decide)
        | cons ch2 x3 =>
            simp only [List.cons_append, List.append_assoc] at hd
            injection hd with hch hrest
            have := hmin x3 b2 c2 (by simp [hrest, List.append_assoc]) hb2 hnl2
            simpa [List.length_cons] using Nat.succ_le_succ this

theorem searchFrom_isSome_of (cs : List Char) (hp : cs.take 8 = playerPat)
    (hg : (grabId (cs.drop 8)).isSome) : (searchFrom cs).isSome := by
  cases cs with
  | nil =>
      exfalso
      rw [List.take_nil] at hp
      exact absurd hp (by decide)
  | cons ch rest =>
      rw [searchFrom_cons, if_pos hp]
      obtain ⟨g, hg2⟩ := Option.isSome_iff_exists.mp hg
      rw [hg2]
      rfl

theorem searchFrom_complete : ∀ (x b c : List Char), b ≠ [] → '\n' ∉ b →
    (searchFrom (x ++ (playerPat ++ (b ++ '/' :: c)))).isSome := by
  intro x
  induction x with
  | nil =>
      intro b c hb hnl
      rw [List.nil_append]
      refine searchFrom_isSome_of _ (List.take_left' (by decide)) ?_
      rw [List.drop_left' (by decide)]
      exact grabId_complete b c hb hnl
  | cons ch x2 ih =>
      intro b c hb hnl
      rw [List.cons_append, searchFrom_cons]
      by_cases hp : ((ch :: (x2 ++ (playerPat ++ (b ++ '/' :: c)))).take 8) = playerPat
      · rw [if_pos hp]
        cases hg : grabId ((ch :: (x2 ++ (playerPat ++ (b ++ '/' :: c)))).drop 8) with
        | some g => rfl
        | none => exact ih b c hb hnl
      · rw [if_neg hp]
        exact ih b c hb hnl

theorem searchFrom_isSome_iff (cs : List Char) :
    (searchFrom cs).isSome ↔
      ∃ x b c, cs = x ++ playerPat ++ b ++ '/' :: c ∧ b ≠ [] ∧ '\n' ∉ b := by
  constructor
  · intro h
    obtain ⟨g, hg⟩ := Option.isSome_iff_exists.mp h
    obtain ⟨x, c, hc, hne, hnl, _, _⟩ := searchFrom_sound cs g hg
    exact ⟨x, g, c, hc, hne, hnl⟩
  · rintro ⟨x, b, c, hc, hb, hnl⟩
    rw [hc]
    have := searchFrom_complete x b c hb hnl
    simpa [List.append_assoc] using this

theorem containsSub_iff (p : List Char) : ∀ l : List Char,
    containsSub p l = true ↔ ∃ x y, l = x ++ p ++ y := by
  intro l
  induction l with
  | nil =>
      simp only [containsSub, List.isEmpty_iff]
      constructor
      · intro h; exact ⟨[], [], by simp [h]⟩
      · rintro ⟨x, y, h⟩
        rcases List.append_eq_nil.mp (List.append_eq_nil.mp h.symm).1 with ⟨_, h2⟩
        exact h2
  | cons c rest ih =>
      simp only [containsSub, Bool.or_eq_true, beq_iff_eq, ih]
      constructor
      · rintro (h | ⟨x, y, h⟩)
        · refine ⟨[], (c :: rest).drop p.length, ?_⟩
          conv_lhs => rw [← List.take_append_drop p.length (c :: rest)]
          rw [← h, List.nil_append]
        · exact ⟨c :: x, y, by simp [h]⟩
      · rintro ⟨x, y, h⟩
        cases x with
        | nil =>
            left
            rw [List.nil_append] at h
            rw [h, List.take_left]
        | cons c2 x2 =>
            right
            rw [List.cons_append, List.cons_append] at h
            exact ⟨x2, y, by simpa using (by simpa using h : c = c2 ∧ rest = x2 ++ (p ++ y)).2⟩

theorem get_player_id_isSome_eq (url : String) :
    (get_player_id url).isSome = (searchFrom url.data).isSome := by
  unfold get_player_id
  cases searchFrom url.data <;> rfl

/-- C3 (amended): `get_player_id` succeeds exactly when the URL contains
`/player/` followed by at least one character — none of which is a newline —
up to the next `/`; and whenever it returns an identifier, that identifier is
verbatim such a segment of the URL, pinned down as the code computes it: the
URL splits as `a ++ "/player/" ++ id ++ "/" ++ c`, the identifier is
non-empty and newline-free, no character after its first one is a `/` (it
stops at the next `/`, the lazy-match rule, so `/player//x/` gives `/x`),
and no strictly earlier position admits an eligible segment (the match is at
the leftmost admissible occurrence). -/
theorem get_player_id_characterization (url : String) :
    ((get_player_id url).isSome ↔
      ∃ a b c : List Char,
        url.data = a ++ playerPat ++ b ++ '/' :: c ∧ b ≠ [] ∧ '\n' ∉ b)
    ∧ (∀ g, get_player_id url = some g →
        ∃ a c : List Char,
          url.data = a ++ playerPat ++ g.data ++ '/' :: c
            ∧ g.data ≠ [] ∧ '\n' ∉ g.data
            ∧ (∀ ch ∈ g.data.tail, ch ≠ '/')
            ∧ (∀ a2 b2 c2 : List Char,
                url.data = a2 ++ playerPat ++ b2 ++ '/' :: c2 → b2 ≠ [] →
                '\n' ∉ b2 → a.length ≤ a2.length)) := by
  constructor
  · rw [get_player_id_isSome_eq]
    exact searchFrom_isSome_iff url.data
  · intro g hg
    unfold get_player_id at hg
    cases hsf : searchFrom url.data with
    | none => rw [hsf] at hg; simp at hg
    | some l =>
        rw [hsf] at hg
        have hl : String.mk l = g := by simpa using hg
        obtain ⟨x, c, hc, hne, hnl, hns, hmin⟩ := searchFrom_sound _ _ hsf
        have hgl : g.data = l := by rw [← hl]
        refine ⟨x, c, ?_, ?_, ?_, ?_, ?_⟩
        · rw [hgl]; exact hc
        · rw [hgl]; exact hne
        · rw [hgl]; exact hnl
        · rw [hgl]; intro ch hm heq; exact hns (heq ▸ hm)
        · exact hmin

/-- C3 as stated is false on the code: `/player/a\nb/` contains `/player/`
followed by the non-empty text `a\nb` up to the next `/`, yet the extractor
returns `None`, because the regex `.` does not match a newline. -/
theorem get_player_id_newline_counterexample :
    get_player_id "/player/a\nb/" = none
    ∧ ("/player/a\nb/" : String).data
        = [] ++ playerPat ++ "a\nb".data ++ '/' :: ([] : List Char)
    ∧ "a\nb".data ≠ [] := by
  exact ⟨rfl, by decide, by decide⟩

/-- Witness for the C3 characterization at the profile URL of the
end-to-end scenario: `kohli` is the returned segment, its tail is
slash-free, and its occurrence is leftmost among eligible ones. -/
theorem get_player_id_characterization_witness :
    ∃ a c : List Char,
      ("https://www.cricbuzz.com/player/kohli/virat-kohli" : String).data
        = a ++ playerPat ++ ("kohli" : String).data ++ '/' :: c
        ∧ ("kohli" : String).data ≠ [] ∧ '\n' ∉ ("kohli" : String).data
        ∧ (∀ ch ∈ ("kohli" : String).data.tail, ch ≠ '/')
        ∧ (∀ a2 b2 c2 : List Char,
            ("https://www.cricbuzz.com/player/kohli/virat-kohli" : String).data
              = a2 ++ playerPat ++ b2 ++ '/' :: c2 → b2 ≠ [] → '\n' ∉ b2 →
            a.length ≤ a2.length) :=
  (get_player_id_characterization "https://www.cricbuzz.com/player/kohli/virat-kohli").2
    "kohli" rfl

/-- C10: a URL whose (sole) `/player/` is followed by a non-empty segment
containing no `/` — hence no terminating slash — yields `None`: the pattern
requires a `/` after the identifier segment. `honce` states that `/player/`
occurs nowhere earlier in the URL (no occurrence inside `a ++ "/player"`). -/
theorem get_player_id_requires_trailing_slash (a b : String) (hb : b ≠ "")
    (hslash : ∀ ch ∈ b.data, ch ≠ '/')
    (honce : containsSub playerPat (a.data ++ "/player".data) = false) :
    get_player_id (a ++ "/player/" ++ b) = none := by
  have hnotocc : ¬ ∃ x y, a.data ++ "/player".data = x ++ playerPat ++ y := by
    intro hex
    have h2 := (containsSub_iff playerPat (a.data ++ "/player".data)).mpr
      (by obtain ⟨x, y, hxy⟩ := hex; exact ⟨x, y, hxy⟩)
    rw [honce] at h2
    exact Bool.false_ne_true h2
  have hdata : (a ++ "/player/" ++ b).data = a.data ++ playerPat ++ b.data := by
    simp [String.data_append, playerPat]
  unfold get_player_id
  rw [hdata]
  suffices h : searchFrom (a.data ++ playerPat ++ b.data) = none by rw [h]; rfl
  by_contra hne
  have hsome : (searchFrom (a.data ++ playerPat ++ b.data)).isSome :=
    Option.ne_none_iff_isSome.mp hne
  obtain ⟨x, bb, c, heq, hbb, hnl⟩ := (searchFrom_isSome_iff _).mp hsome
  have hL : a.data ++ playerPat ++ b.data
      = (a.data ++ "/player".data) ++ '/' :: b.data := by
    rw [show playerPat = "/player".data ++ ['/'] from by decide]
    simp [List.append_assoc]
  have hR : x ++ playerPat ++ bb ++ '/' :: c = (x ++ playerPat ++ bb) ++ '/' :: c := by
    simp [List.append_assoc]
  rw [hL, hR] at heq
  rcases List.append_eq_append_iff.mp heq with ⟨m, hm1, hm2⟩ | ⟨m, hm1, hm2⟩
  · cases m with
    | nil =>
        rw [List.append_nil] at hm1
        exact hnotocc ⟨x, bb, hm1.symm⟩
    | cons ch m2 =>
        have hBC : b.data = m2 ++ '/' :: c := by
          have := (by simpa using hm2 : '/' = ch ∧ b.data = m2 ++ '/' :: c)
          exact this.2
        have : ('/' : Char) ∈ b.data := by
          rw [hBC]
          exact List.mem_append_right m2 (List.mem_cons_self '/' c)
        exact hslash '/' this rfl
  · refine hnotocc ⟨x, bb ++ m, ?_⟩
    rw [hm1]
    simp [List.append_assoc]

/-- Witness for C10: `/player/kohli` (no trailing slash) yields `None`. -/
theorem get_player_id_requires_trailing_slash_witness :
    get_player_id ("" ++ "/player/" ++ "kohli") = none :=
  get_player_id_requires_trailing_slash "" "kohli" (by decide)
    (by decide) (by decide)

end CricApp

